import Mathlib

/-!
Shallow embedding of the `metered` crate's metric-composition core:
the bounded saturating histogram wrapper (`src/metered/src/hdr_histogram.rs`),
the wrapping counter and gauge cells (`src/metered/src/atomic.rs`,
`src/metered/src/num_wrapper.rs`, `src/metered/src/int_counter.rs`,
`src/metered/src/int_gauge.rs`), the rolling throughput tracker
(`src/metered/src/common/throughput/tx_per_sec.rs`), the `ExitGuard`
lifecycle protocol (`src/metered/src/metric.rs`) and the stock metrics
(`src/metered/src/common/`).

Machine integers are modelled as `Nat` residues with explicit `% 2 ^ w`
where the source wraps; fallible operations (library calls that return
`Result`, arithmetic that panics in overflow-checked builds) return
`Option`.  Time is modelled by passing the current instant explicitly:
an `Instant` captured at time `t` observed at time `now` has
`elapsed_time = now - t` (the time source is monotone, in the source's
units where `ONE_SEC` is one window).
-/

namespace Metered

/-- The control decision a metric's exit observation returns
(re-exported from the `aspect` crate; this repository only ever
constructs `Advice::Return`, the pass-through decision). -/
inductive Advice : Type
  | Return : Advice
deriving DecidableEq, Repr

/-! ## Histogram engine — `src/metered/src/hdr_histogram.rs`

`HdrHistogram::with_bound` builds
`hdrhistogram::Histogram::<u64>::new_with_bounds(1, max_bound, 2)`.
The third-party histogram is modelled by its configured bound together
with the list of recorded values, newest first (an occurrence per
recorded sample).  The crate's 2-significant-figure bucket quantization
is not modelled: no claim below depends on bucket rounding. -/

structure HdrHistogram : Type where
  maxBound : Nat
  samples : List Nat
deriving DecidableEq, Repr

namespace HdrHistogram

/-- `hdrhistogram::Histogram::new_with_bounds(1, max_bound, 2)` fails
when `high < 2 * low`, i.e. when `max_bound < 2` (and when `sigfig > 5`,
which the fixed argument 2 never triggers).  `HdrHistogram::with_bound`
calls `.expect` on that result, so `none` models the construction-time
panic. -/
def with_bound (max_bound : Nat) : Option HdrHistogram :=
  if 2 * 1 ≤ max_bound then some ⟨max_bound, []⟩ else none

/-- The fallible `hdrhistogram::Histogram::record_n`: errors when the
value exceeds the configured bound. -/
def recordChecked (h : HdrHistogram) (v n : Nat) : Option HdrHistogram :=
  if v ≤ h.maxBound then some ⟨h.maxBound, List.replicate n v ++ h.samples⟩ else none

/-- `HdrHistogram::record_n`, which delegates to the library's
`saturating_record_n`: a value above the bound is clamped to the bound
and then recorded, so recording is total. -/
def record_n (h : HdrHistogram) (v n : Nat) : HdrHistogram :=
  ⟨h.maxBound, List.replicate n (min v h.maxBound) ++ h.samples⟩

/-- `HdrHistogram::record`, delegating to the library's
`saturating_record` (one sample). -/
def record (h : HdrHistogram) (v : Nat) : HdrHistogram :=
  h.record_n v 1

/-- `HdrHistogram::clear` resets the recorded counts and keeps the
configuration. -/
def clear (h : HdrHistogram) : HdrHistogram :=
  ⟨h.maxBound, []⟩

/-- `HdrHistogram::len`: the number of recorded samples. -/
def len (h : HdrHistogram) : Nat :=
  h.samples.length

/-- `HdrHistogram::min`: the lowest recorded value; 0 when the
histogram has no recorded values (as the underlying library returns and
the wrapper documents). -/
def min (h : HdrHistogram) : Nat :=
  match h.samples with
  | [] => 0
  | x :: xs => xs.foldl Nat.min x

/-- `HdrHistogram::max`: the highest recorded value.  The wrapper
documents the empty-histogram return as undefined; the underlying
library happens to return 0 there, which this model follows. -/
def max (h : HdrHistogram) : Nat :=
  h.samples.foldl Nat.max 0

/-- `HdrHistogram::mean`: arithmetic mean of the recorded samples
(0 on an empty histogram, as the library returns). -/
def mean (h : HdrHistogram) : Rat :=
  if h.samples.length = 0 then 0
  else (h.samples.sum : Rat) / (h.samples.length : Rat)

end HdrHistogram

/-! ## Wrapping numeric cells — `src/metered/src/num_wrapper.rs`,
`src/metered/src/atomic.rs`, `src/metered/src/int_counter.rs`,
`src/metered/src/int_gauge.rs`

Cell contents are residues modulo `2 ^ w` for the instantiated widths
w ∈ {8, 16, 32, 64, 128}; `usize` counts are naturals below `2 ^ 64`
(the `target_pointer_width = "64"` configuration). -/

/-- `NumWrapper::<uW>::wrap` on a 64-bit target: widths below 64 reduce
the `usize` count modulo `2 ^ w` (`count % (MAX + 1)`); u64 and u128 use
`count as uW`, the identity on `usize` values. -/
def NumWrapper.wrap (w count : Nat) : Nat :=
  if w < 64 then count % 2 ^ w else count

/-- A Rust `count as uW` cast of a `usize`: truncation, i.e. reduction
modulo `2 ^ w` (for w ≥ 64 this is value-preserving on `usize` inputs,
and reduction modulo `2 ^ w` is then also the identity). -/
def usizeCast (w count : Nat) : Nat := count % 2 ^ w

namespace AtomicInt

/-- `AtomicInt::incr_by`: a relaxed `fetch_add`, which wraps modulo the
cell width and never panics (the new cell value; the source returns the
previous value, which callers in this crate discard). -/
def incr_by (w v n : Nat) : Nat := (v + n) % 2 ^ w

/-- `AtomicInt::decr_by`: a relaxed `fetch_sub`, two's-complement
wrapping subtraction modulo the cell width. -/
def decr_by (w v n : Nat) : Nat := (v + (2 ^ w - n % 2 ^ w)) % 2 ^ w

end AtomicInt

/-- `Counter::incr_by` for `AtomicInt<uW>` and `Cell<uW>`
(`src/metered/src/int_counter.rs`): wrap the `usize` count into the cell
width with `NumWrapper`, then a wrapping add (`fetch_add` respectively
`wrapping_add`). -/
def Counter.incr_by (w v count : Nat) : Nat :=
  AtomicInt.incr_by w v (NumWrapper.wrap w count)

namespace BatchGauge

/-- `BatchGauge::incr_by` for `AtomicInt<uW>`
(`src/metered/src/int_gauge.rs`): `count as uW` then `fetch_add`
(wrapping, never panics). -/
def incr_by (w v count : Nat) : Nat :=
  AtomicInt.incr_by w v (usizeCast w count)

/-- `BatchGauge::decr_by` for `AtomicInt<uW>`: `count as uW` then
`fetch_sub` (wrapping, never panics). -/
def decr_by (w v count : Nat) : Nat :=
  AtomicInt.decr_by w v (usizeCast w count)

end BatchGauge

namespace CellGauge

/-- `Gauge for Cell<uW>::incr` (`src/metered/src/int_gauge.rs`):
`self.set(self.get() + 1)` with the unchecked `+` operator.  In an
overflow-checked build (the debug profile) an overflowing add panics,
modelled as `none`; otherwise the successor is stored. -/
def incr (w v : Nat) : Option Nat :=
  if v + 1 < 2 ^ w then some (v + 1) else none

/-- `Gauge for Cell<uW>::decr`: `self.set(self.get() - 1)` with the
unchecked `-` operator; underflow panics in an overflow-checked build. -/
def decr (_w v : Nat) : Option Nat :=
  if 1 ≤ v then some (v - 1) else none

/-- `BatchGauge for Cell<uW>::incr_by`: `count as uW` (truncating cast,
never panics) then an unchecked `+`. -/
def incr_by (w v count : Nat) : Option Nat :=
  if v + usizeCast w count < 2 ^ w then some (v + usizeCast w count) else none

/-- `BatchGauge for Cell<uW>::decr_by`: `count as uW` then an
unchecked `-`. -/
def decr_by (w v count : Nat) : Option Nat :=
  if usizeCast w count ≤ v then some (v - usizeCast w count) else none

end CellGauge

/-! ## Metric lifecycle protocol — `src/metered/src/metric.rs`

A `Metric<R>` is `Enter + OnResultOwned<R>`: `enter` produces an entry
token, `on_result` consumes the token together with the produced value,
and `leave_scope` consumes the token alone on the abnormal path.  The
metric's shared interior-mutable state is threaded explicitly as a
value of type `S`; the token type is `E` and the expression's result
type is `R`. -/

structure MetricOps (S E R : Type) : Type where
  enter : S → S × E
  on_result : E → R → S → S × Advice × R
  leave_scope : E → S → S × Advice

/-- `ExitGuard` (`src/metered/src/metric.rs`): owns the optional entry
token; `on_result` takes the token out, `Drop` falls back to
`leave_scope` only when the token is still present. -/
structure ExitGuard (E : Type) : Type where
  enter : Option E
deriving DecidableEq, Repr

namespace ExitGuard

/-- `ExitGuard::new`: calls `enter` on the metric and stores the token. -/
def new {S E R : Type} (m : MetricOps S E R) (s : S) : S × ExitGuard E :=
  ((m.enter s).1, ⟨some (m.enter s).2⟩)

/-- `ExitGuard::on_result`: if the token is still present, take it and
run the metric's `on_result`, returning the (possibly transformed)
result; otherwise the observation already happened and the result is
passed through unchanged.  The returned guard reflects `self` after
`Option::take`. -/
def on_result {S E R : Type} (m : MetricOps S E R) (g : ExitGuard E) (r : R)
    (s : S) : S × R × ExitGuard E :=
  match g.enter with
  | some e => ((m.on_result e r s).1, (m.on_result e r s).2.2, ⟨none⟩)
  | none => (s, r, ⟨none⟩)

/-- `Drop for ExitGuard`: if the token was never consumed, run the
metric's `leave_scope`; otherwise do nothing. -/
def drop {S E R : Type} (m : MetricOps S E R) (g : ExitGuard E) (s : S) : S :=
  match g.enter with
  | some e => (m.leave_scope e s).1
  | none => s

end ExitGuard

/-! ## Stock metrics — `src/metered/src/common/` -/

/-- `HitCount::enter` (`src/metered/src/common/hit_count.rs`):
increment the backing counter, by default an `AtomicInt<u64>`.  The
`OnResult` impl is empty, so the exit phase is a no-op. -/
def HitCount.enter (c : Nat) : Nat := Counter.incr_by 64 c 1

/-- `ErrorCount::on_result` (`src/metered/src/common/error_count.rs`):
increment the backing `u64` counter iff the observed `Result` is the
`Err` variant (`isErr` is `r.is_err()`). -/
def ErrorCount.on_result (isErr : Bool) (c : Nat) : Nat :=
  if isErr then Counter.incr_by 64 c 1 else c

namespace InFlight

/-- `InFlight::enter` (`src/metered/src/common/in_flight.rs`):
increment the backing gauge, by default an `AtomicInt<u64>`. -/
def enter (g : Nat) : Nat := (g + 1) % 2 ^ 64

/-- `InFlight`'s `leave_scope`: decrement the gauge (wrapping
`fetch_sub`); runs on every exit, normal or abnormal, because
`OnResult`'s default `on_result` delegates to it. -/
def leave_scope (g : Nat) : Nat := AtomicInt.decr_by 64 g 1

/-- `Clear for InFlight`: deliberately does nothing — clearing would
leave the gauge inconsistent with the decrements still to come. -/
def clear (g : Nat) : Nat := g

end InFlight

namespace ResponseTime

/-- `ResponseTime`'s `leave_scope`
(`src/metered/src/common/response_time.rs` lines 71-77): compute the
elapsed time from the entry instant `e` to the current instant `now`
and record it into the histogram (saturating at the bound).  The
`OnResult` impl overrides only `leave_scope`, so the normal path's
default `on_result` runs this very code as well. -/
def leave_scope (now e : Nat) (h : HdrHistogram) : HdrHistogram :=
  h.record (now - e)

end ResponseTime

/-- The `ResponseTime` metric as `MetricOps`: `enter` captures the
current instant (`T::now()`, the scope is entered at time `tEnter`),
and both exit paths record the elapsed time at observation time `tNow`. -/
def responseTimeOps (R : Type) (tEnter tNow : Nat) :
    MetricOps HdrHistogram Nat R where
  enter := fun h => (h, tEnter)
  on_result := fun e r h => (ResponseTime.leave_scope tNow e h, Advice.Return, r)
  leave_scope := fun e h => (ResponseTime.leave_scope tNow e h, Advice.Return)

/-- The `InFlight` metric as `MetricOps`: a unit token, gauge increment
on entry, gauge decrement on either exit path. -/
def inFlightOps (R : Type) : MetricOps Nat Unit R where
  enter := fun g => (InFlight.enter g, ())
  on_result := fun _ r g => (InFlight.leave_scope g, Advice.Return, r)
  leave_scope := fun _ g => (InFlight.leave_scope g, Advice.Return)

/-! ## HitCount + ErrorCount composition — spec §8's concrete scenario -/

/-- The two counter cells of a `HitCount` + `ErrorCount` pair attached
to the same expression (both default `AtomicInt<u64>` counters). -/
structure HitErrState : Type where
  hit : Nat
  err : Nat
deriving DecidableEq, Repr

namespace HitErr

/-- One completed `measure!`-wrapped invocation: `HitCount` increments
unconditionally at entry, `ErrorCount` observes whether the produced
result is `Err` at exit. -/
def invoke (st : HitErrState) (isErr : Bool) : HitErrState :=
  { hit := HitCount.enter st.hit, err := ErrorCount.on_result isErr st.err }

/-- A sequence of completed invocations, given each invocation's
`is_err()` classification. -/
def run (st : HitErrState) (results : List Bool) : HitErrState :=
  results.foldl invoke st

end HitErr

/-! ## Rolling throughput tracker —
`src/metered/src/common/throughput/tx_per_sec.rs` -/

/-- `TxPerSec`: histogram of per-window counts, optional start instant,
index of the last closed window, running count of the current window.
The start instant is stored as the absolute time it was captured. -/
structure TxPerSec : Type where
  hdr_histogram : HdrHistogram
  start_time : Option Nat
  last_window : Nat
  count : Nat
deriving DecidableEq, Repr

namespace TxPerSec

/-- `TxPerSec::default`: a histogram bounded at 100,000 TPS
(`HdrHistogram::with_bound(100_000)`, which succeeds), no start time,
window 0, count 0. -/
def default : TxPerSec := ⟨⟨100000, []⟩, none, 0, 0⟩

/-- `TxPerSec::update` observed at absolute time `now`, with `oneSec`
time units per window (`T::ONE_SEC`): if a start instant exists, close
the current window when the window index advanced — record the running
count, backfill the fully-skipped windows with zero-count samples,
advance the window; otherwise set the start instant. -/
def update (oneSec now : Nat) (s : TxPerSec) : TxPerSec :=
  match s.start_time with
  | some start_time =>
    let elapsed := now - start_time
    let this_window := elapsed / oneSec
    if this_window > s.last_window then
      let h := s.hdr_histogram.record s.count
      let empty_windows := this_window - s.last_window - 1
      let h := if empty_windows > 0 then h.record_n 0 empty_windows else h
      { s with hdr_histogram := h, count := 0, last_window := this_window }
    else s
  | none => { s with start_time := some now }

/-- `TxPerSec::on_result`: update the window bookkeeping, then count
this event into the current window. -/
def on_result (oneSec now : Nat) (s : TxPerSec) : TxPerSec :=
  let s := s.update oneSec now
  { s with count := s.count + 1 }

/-- `TxPerSec::clear`: clear the histogram and reset start instant,
window index and running count. -/
def clear (s : TxPerSec) : TxPerSec :=
  ⟨s.hdr_histogram.clear, none, 0, 0⟩

/-- Fold a sequence of events (given by their absolute times) through
`on_result`. -/
def run (oneSec : Nat) (times : List Nat) (s : TxPerSec) : TxPerSec :=
  times.foldl (fun s t => on_result oneSec t s) s

end TxPerSec

/-! ## Helper lemmas -/

/-- Wrapping add then wrapping subtract of the same reduced amount is
the identity on residues: the algebra shared by every wrapping cell. -/
theorem wrap_add_sub_cancel (M v m : Nat) (hM : 0 < M) (hv : v < M) :
    ((v + m) % M + (M - m % M)) % M = v := by
  have hdm := Nat.div_add_mod m M
  have hmlt : m % M < M := Nat.mod_lt _ hM
  have hsplit : v + m + (M - m % M) = v + M * (m / M) + M := by omega
  calc ((v + m) % M + (M - m % M)) % M
      = (v + m + (M - m % M)) % M := by rw [Nat.mod_add_mod]
    _ = (v + M * (m / M) + M) % M := by rw [hsplit]
    _ = (v + M * (m / M)) % M := Nat.add_mod_right _ _
    _ = v % M := by rw [Nat.mul_comm, Nat.add_mul_mod_self_right]
    _ = v := Nat.mod_eq_of_lt hv

/-- The saturating record path never hits the library's out-of-range
error: the clamped value always passes the fallible inner record. -/
theorem HdrHistogram.recordChecked_clamped (h : HdrHistogram) (v n : Nat) :
    h.recordChecked (Nat.min v h.maxBound) n = some (h.record_n v n) := by
  simp [recordChecked, record_n, Nat.min_le_right]

/-- Unfolding equation for `ExitGuard.drop` on a guard still holding its
token. -/
theorem ExitGuard.drop_of_some {S E R : Type} (m : MetricOps S E R) (e : E)
    (s : S) : ExitGuard.drop m ⟨some e⟩ s = (m.leave_scope e s).1 := rfl

/-- A wrapping gauge increment followed by a wrapping decrement restores
the gauge's value (shared by the `InFlight` exit paths). -/
theorem in_flight_enter_leave_roundtrip (x : Nat) :
    InFlight.leave_scope (InFlight.enter (x % 2 ^ 64)) = x % 2 ^ 64 := by
  have hM : 0 < 2 ^ 64 := Nat.pow_pos (by norm_num)
  unfold InFlight.enter InFlight.leave_scope AtomicInt.decr_by
  exact wrap_add_sub_cancel _ _ _ hM (Nat.mod_lt _ hM)

/-! ## Claim theorems -/

/-- C1: for every metric wrapped via an `ExitGuard`, the exit
observation runs exactly once on every exit path.  Over an arbitrary
metric (so the metric's own state can count calls): the guard stores
the entry token; the fast path's `on_result` runs the metric's exit
hook once with that token and yields its transformed result; dropping
the guard afterwards leaves the state untouched; dropping the guard
without `on_result` runs `leave_scope` exactly once with the token; and
a second observation on a consumed guard passes state and result
through unchanged (the token is consumed exactly once). -/
theorem exit_guard_observes_exactly_once {S E R : Type}
    (m : MetricOps S E R) (s₀ : S) (r : R) :
    (ExitGuard.new m s₀).2.enter = some (m.enter s₀).2
    ∧ (ExitGuard.on_result m (ExitGuard.new m s₀).2 r (ExitGuard.new m s₀).1).1
        = (m.on_result (m.enter s₀).2 r (ExitGuard.new m s₀).1).1
    ∧ (ExitGuard.on_result m (ExitGuard.new m s₀).2 r (ExitGuard.new m s₀).1).2.1
        = (m.on_result (m.enter s₀).2 r (ExitGuard.new m s₀).1).2.2
    ∧ (∀ s' : S,
        ExitGuard.drop m
          (ExitGuard.on_result m (ExitGuard.new m s₀).2 r (ExitGuard.new m s₀).1).2.2 s'
        = s')
    ∧ ExitGuard.drop m (ExitGuard.new m s₀).2 (ExitGuard.new m s₀).1
        = (m.leave_scope (m.enter s₀).2 (ExitGuard.new m s₀).1).1
    ∧ (∀ (s' : S) (r' : R),
        ExitGuard.on_result m
          (ExitGuard.on_result m (ExitGuard.new m s₀).2 r (ExitGuard.new m s₀).1).2.2 r' s'
        = (s', r', ⟨none⟩)) :=
  ⟨rfl, rfl, rfl, fun _ => rfl, rfl, fun _ _ => rfl⟩

/-- C2 counterexample: the claim says a `ResponseTime` metric skips
recording into its histogram when the guard is dropped without a
result.  At the concrete input — entry at instant 5, guard dropped at
instant 12 over the default 5-minute-bound histogram — the drop path
records the elapsed time 7, so the histogram is not left unchanged. -/
theorem response_time_drop_records_cx :
    (ExitGuard.drop (responseTimeOps Unit 5 12)
        (ExitGuard.new (responseTimeOps Unit 5 12) ⟨300000, []⟩).2
        (ExitGuard.new (responseTimeOps Unit 5 12) ⟨300000, []⟩).1).samples = [7]
    ∧ ExitGuard.drop (responseTimeOps Unit 5 12)
        (ExitGuard.new (responseTimeOps Unit 5 12) ⟨300000, []⟩).2
        (ExitGuard.new (responseTimeOps Unit 5 12) ⟨300000, []⟩).1
      ≠ (⟨300000, []⟩ : HdrHistogram) := by
  decide

/-- C2 (amended): on abnormal exit (guard dropped without a result), a
`ResponseTime` metric does not skip recording — its `leave_scope`
records the elapsed time since entry (saturated to the histogram's
bound) into the histogram, exactly as on a normal exit; and gauge-like
state such as an `InFlight` gauge is released on that path (the gauge
returns to its pre-entry value). -/
theorem response_time_drop_records (R : Type) (tE tN : Nat)
    (h : HdrHistogram) (g : Nat) :
    (ExitGuard.drop (responseTimeOps R tE tN)
        (ExitGuard.new (responseTimeOps R tE tN) h).2
        (ExitGuard.new (responseTimeOps R tE tN) h).1).samples
      = min (tN - tE) h.maxBound :: h.samples
    ∧ ExitGuard.drop (inFlightOps R)
        (ExitGuard.new (inFlightOps R) (g % 2 ^ 64)).2
        (ExitGuard.new (inFlightOps R) (g % 2 ^ 64)).1
      = g % 2 ^ 64 := by
  constructor
  · rfl
  · show ExitGuard.drop (inFlightOps R) ⟨some ()⟩ (InFlight.enter (g % 2 ^ 64))
        = g % 2 ^ 64
    rw [ExitGuard.drop_of_some]
    show InFlight.leave_scope (InFlight.enter (g % 2 ^ 64)) = g % 2 ^ 64
    exact in_flight_enter_leave_roundtrip g

/-- C3: the claim says increment and decrement on every counter and
gauge cell never panic and wrap.  The `Gauge`/`BatchGauge` impls for
`Cell<uW>` use the unchecked `+`/`-` operators, which panic on overflow
in an overflow-checked build (`none` below) instead of wrapping — at
`Cell<u8>` holding 255, `incr` panics, and at 0, `decr` panics —
whereas the `AtomicInt` cells and the `Counter` impls do wrap as the
claim states. -/
theorem cell_gauge_unchecked_arithmetic :
    CellGauge.incr 8 255 = none
    ∧ CellGauge.decr 8 0 = none
    ∧ CellGauge.incr_by 8 200 100 = none
    ∧ CellGauge.decr_by 8 3 10 = none
    ∧ AtomicInt.incr_by 8 255 1 = 0
    ∧ AtomicInt.decr_by 8 0 1 = 255
    ∧ Counter.incr_by 8 255 1 = 0
    ∧ BatchGauge.incr_by 8 200 100 = 44
    ∧ BatchGauge.decr_by 8 3 10 = 249 := by
  decide

/-- C6: recording `bound + k` leaves the histogram in the same
observable state as recording `bound`: the saturating record clamps the
out-of-range value to the bound, so the resulting states — and hence
sample count, min, max and mean (and any other query, the states being
equal) — coincide, without error or panic. -/
theorem histogram_saturation_idempotent (h : HdrHistogram) (k : Nat) :
    h.record (h.maxBound + k) = h.record h.maxBound
    ∧ (h.record (h.maxBound + k)).len = (h.record h.maxBound).len
    ∧ (h.record (h.maxBound + k)).min = (h.record h.maxBound).min
    ∧ (h.record (h.maxBound + k)).max = (h.record h.maxBound).max
    ∧ (h.record (h.maxBound + k)).mean = (h.record h.maxBound).mean := by
  have key : h.record (h.maxBound + k) = h.record h.maxBound := by
    unfold HdrHistogram.record HdrHistogram.record_n
    rw [Nat.min_eq_right (Nat.le_add_right _ _), Nat.min_self]
  exact ⟨key, by rw [key], by rw [key], by rw [key], by rw [key]⟩

/-- C9: `Clear for InFlight` is a silent no-op — the gauge value is
unchanged by `clear` — so entering, clearing mid-flight and leaving
still returns the gauge to its pre-entry value (accounting stays
balanced across clears). -/
theorem in_flight_clear_noop (g : Nat) :
    InFlight.clear g = g
    ∧ InFlight.leave_scope (InFlight.clear (InFlight.enter (g % 2 ^ 64)))
        = g % 2 ^ 64 :=
  ⟨rfl, in_flight_enter_leave_roundtrip g⟩

/-- C5: on every cell width, `incr_by n` followed by `decr_by n`
restores the original value `v`, for every `n` — including `n` beyond
the cell's range — because the modulo-`2 ^ w` conversion
(`NumWrapper::wrap`, respectively the truncating `as` cast) composes
with the wrapping add and subtract into the identity.  Stated for the
counter path (`NumWrapper` + `fetch_add`/`fetch_sub`) and the
`BatchGauge for AtomicInt` path (`as` cast + `fetch_add`/`fetch_sub`). -/
theorem incr_decr_restores (w v n : Nat) (hv : v < 2 ^ w) :
    AtomicInt.decr_by w (AtomicInt.incr_by w v (NumWrapper.wrap w n))
        (NumWrapper.wrap w n) = v
    ∧ BatchGauge.decr_by w (BatchGauge.incr_by w v n) n = v := by
  have hM : 0 < 2 ^ w := Nat.pow_pos (by norm_num)
  constructor
  · unfold AtomicInt.decr_by AtomicInt.incr_by
    exact wrap_add_sub_cancel _ _ _ hM hv
  · unfold BatchGauge.decr_by BatchGauge.incr_by AtomicInt.decr_by AtomicInt.incr_by
    exact wrap_add_sub_cancel _ _ _ hM hv

/-- Witness for C5 at the concrete input w = 8, v = 250, n = 1000
(n far beyond the u8 range). -/
theorem incr_decr_restores_witness :
    250 < 2 ^ 8
    ∧ (AtomicInt.decr_by 8 (AtomicInt.incr_by 8 250 (NumWrapper.wrap 8 1000))
          (NumWrapper.wrap 8 1000) = 250
       ∧ BatchGauge.decr_by 8 (BatchGauge.incr_by 8 250 1000) 1000 = 250) :=
  ⟨by decide, incr_decr_restores 8 250 1000 (by decide)⟩

/-- C7: constructing a histogram with an invalid bound fails at
construction time (`with_bound` panics — `none` — for bound 0, and
also for bound 1, the other value below the library's `2 * low`
threshold), never deferred to first use; for every bound in the valid
range (≥ 2) construction succeeds, and the recording path can never
fail afterwards: the fallible inner record always succeeds on the
clamped value. -/
theorem histogram_bound_validation :
    HdrHistogram.with_bound 0 = none
    ∧ HdrHistogram.with_bound 1 = none
    ∧ (∀ b : Nat, 2 ≤ b → HdrHistogram.with_bound b = some ⟨b, []⟩)
    ∧ (∀ (h : HdrHistogram) (v n : Nat),
        h.recordChecked (Nat.min v h.maxBound) n = some (h.record_n v n)) := by
  refine ⟨rfl, rfl, ?_, ?_⟩
  · intro b hb
    unfold HdrHistogram.with_bound
    rw [if_pos (by omega)]
  · exact fun h v n => h.recordChecked_clamped v n

/-- Witness for C7 at the concrete bound 300000 (the default
`ResponseTime` bound) and an out-of-range recording. -/
theorem histogram_bound_validation_witness :
    (2 ≤ 300000 ∧ HdrHistogram.with_bound 300000 = some ⟨300000, []⟩)
    ∧ HdrHistogram.recordChecked ⟨300000, []⟩ (Nat.min 999999999 300000) 1
        = some (HdrHistogram.record_n ⟨300000, []⟩ 999999999 1) :=
  ⟨⟨by decide, histogram_bound_validation.2.2.1 300000 (by decide)⟩,
   histogram_bound_validation.2.2.2 ⟨300000, []⟩ 999999999 1⟩

/-- C10: on a histogram with zero recorded samples — freshly
constructed or just cleared — the min query returns 0, and after
`clear` the sample count is 0.  (The max query's return on an empty
histogram is documented as undefined, so no value is asserted for
it.) -/
theorem histogram_empty_min_and_clear :
    (∀ h : HdrHistogram, h.len = 0 → h.min = 0)
    ∧ (∀ h : HdrHistogram, h.clear.len = 0 ∧ h.clear.min = 0)
    ∧ (∀ (b : Nat) (h : HdrHistogram),
        HdrHistogram.with_bound b = some h → h.len = 0 ∧ h.min = 0) := by
  refine ⟨?_, ?_, ?_⟩
  · intro h hl
    obtain ⟨b, s⟩ := h
    cases s with
    | nil => rfl
    | cons x xs => simp [HdrHistogram.len] at hl
  · exact fun h => ⟨rfl, rfl⟩
  · intro b h hb
    unfold HdrHistogram.with_bound at hb
    by_cases h2 : 2 * 1 ≤ b
    · rw [if_pos h2] at hb
      injection hb with hh
      subst hh
      exact ⟨rfl, rfl⟩
    · rw [if_neg h2] at hb
      exact Option.noConfusion hb

/-- Unfolding equation for `TxPerSec.update` with no start instant yet:
only the start instant is set, nothing is flushed. -/
theorem tx_update_none (oneSec now : Nat) (h : HdrHistogram) (lw c : Nat) :
    TxPerSec.update oneSec now ⟨h, none, lw, c⟩ = ⟨h, some now, lw, c⟩ := rfl

/-- Unfolding equation for `TxPerSec.update` with a start instant. -/
theorem tx_update_some (oneSec now st : Nat) (h : HdrHistogram) (lw c : Nat) :
    TxPerSec.update oneSec now ⟨h, some st, lw, c⟩
      = if (now - st) / oneSec > lw
          then ⟨(if (now - st) / oneSec - lw - 1 > 0
                   then (h.record c).record_n 0 ((now - st) / oneSec - lw - 1)
                   else h.record c),
                some st, (now - st) / oneSec, 0⟩
          else ⟨h, some st, lw, c⟩ := rfl

/-- Unfolding equation for `TxPerSec.on_result`: update the windows,
then count the event. -/
theorem tx_on_result_def (oneSec now : Nat) (s : TxPerSec) :
    TxPerSec.on_result oneSec now s
      = ⟨(TxPerSec.update oneSec now s).hdr_histogram,
         (TxPerSec.update oneSec now s).start_time,
         (TxPerSec.update oneSec now s).last_window,
         (TxPerSec.update oneSec now s).count + 1⟩ := rfl

/-- Events strictly within the first window only accumulate the running
count: the histogram, start instant and window index are untouched. -/
theorem tx_run_within_first_window (oneSec t0 : Nat) (ts : List Nat) :
    ∀ (h : HdrHistogram) (c : Nat),
    (∀ t ∈ ts, t0 ≤ t ∧ t - t0 < oneSec) →
    TxPerSec.run oneSec ts ⟨h, some t0, 0, c⟩ = ⟨h, some t0, 0, c + ts.length⟩ := by
  induction ts with
  | nil => intro h c _; rfl
  | cons t l ih =>
    intro h c hts
    have ht := hts t (List.mem_cons_self t l)
    have hwin : (t - t0) / oneSec = 0 := Nat.div_eq_of_lt ht.2
    have hone : TxPerSec.on_result oneSec t ⟨h, some t0, 0, c⟩
        = ⟨h, some t0, 0, c + 1⟩ := by
      rw [tx_on_result_def, tx_update_some, hwin]
      rfl
    have hstep : TxPerSec.run oneSec (t :: l) ⟨h, some t0, 0, c⟩
        = TxPerSec.run oneSec l (TxPerSec.on_result oneSec t ⟨h, some t0, 0, c⟩) := rfl
    rw [hstep, hone, ih h (c + 1) (fun u hu => hts u (List.mem_cons_of_mem _ hu))]
    have hlen : c + 1 + l.length = c + (t :: l).length := by
      simp [List.length_cons]
      omega
    rw [hlen]

/-- C4: on a freshly-cleared tracker, record R events strictly within
the first window unit (one at the start instant `t0`, then
`ts.length` more before the window closes), let K whole windows elapse
with no events, then record one final event in window K + 1: the
histogram receives the sample worth R first, then exactly K zero-count
backfill samples, and nothing else; and the very first event on the
fresh tracker only sets the start instant (count 1, window 0, histogram
untouched) and flushes nothing. -/
theorem throughput_window_backfill (oneSec t0 tf K R : Nat) (ts : List Nat)
    (hts : ∀ t ∈ ts, t0 ≤ t ∧ t - t0 < oneSec)
    (hR : R = ts.length + 1)
    (hRb : R ≤ 100000)
    (hK : (tf - t0) / oneSec = K + 1) :
    (TxPerSec.run oneSec (t0 :: (ts ++ [tf])) TxPerSec.default).hdr_histogram.samples
      = List.replicate K 0 ++ [R]
    ∧ TxPerSec.on_result oneSec t0 TxPerSec.default
      = ⟨TxPerSec.default.hdr_histogram, some t0, 0, 1⟩ := by
  have hfirst : TxPerSec.on_result oneSec t0 TxPerSec.default
      = ⟨⟨100000, []⟩, some t0, 0, 1⟩ := rfl
  refine ⟨?_, hfirst⟩
  have hsplit : TxPerSec.run oneSec (t0 :: (ts ++ [tf])) TxPerSec.default
      = TxPerSec.run oneSec [tf]
          (TxPerSec.run oneSec ts (TxPerSec.on_result oneSec t0 TxPerSec.default)) := by
    unfold TxPerSec.run
    rw [List.foldl_cons, List.foldl_append]
  rw [hsplit, hfirst,
      tx_run_within_first_window oneSec t0 ts ⟨100000, []⟩ 1 hts]
  have hcnt : 1 + ts.length = R := by omega
  rw [hcnt]
  have hrun1 : TxPerSec.run oneSec [tf] (⟨⟨100000, []⟩, some t0, 0, R⟩ : TxPerSec)
      = TxPerSec.on_result oneSec tf ⟨⟨100000, []⟩, some t0, 0, R⟩ := rfl
  rw [hrun1, tx_on_result_def, tx_update_some, hK,
      if_pos (Nat.succ_pos K)]
  have hK1 : K + 1 - 0 - 1 = K := by omega
  rw [hK1]
  rcases Nat.eq_zero_or_pos K with h0 | hpos
  · subst h0
    show ((⟨100000, []⟩ : HdrHistogram).record R).samples = List.replicate 0 0 ++ [R]
    simp [HdrHistogram.record, HdrHistogram.record_n, Nat.min_eq_left hRb]
  · rw [if_pos hpos]
    show (((⟨100000, []⟩ : HdrHistogram).record R).record_n 0 K).samples
        = List.replicate K 0 ++ [R]
    simp [HdrHistogram.record, HdrHistogram.record_n, Nat.min_eq_left hRb,
      Nat.zero_min]

/-- Witness for C4: window unit 1000 (milliseconds, `StdInstant`),
three events at instants 0, 1, 2 (R = 3), then a final event at
instant 5000, i.e. in window 5 after K = 4 empty windows. -/
theorem throughput_window_backfill_witness :
    (∀ t ∈ ([1, 2] : List Nat), 0 ≤ t ∧ t - 0 < 1000)
    ∧ (TxPerSec.run 1000 (0 :: ([1, 2] ++ [5000])) TxPerSec.default).hdr_histogram.samples
        = List.replicate 4 0 ++ [3]
    ∧ TxPerSec.on_result 1000 0 TxPerSec.default
        = ⟨TxPerSec.default.hdr_histogram, some 0, 0, 1⟩ :=
  ⟨by decide,
   (throughput_window_backfill 1000 0 5000 4 3 [1, 2] (by decide) (by decide)
      (by decide) (by decide)).1,
   (throughput_window_backfill 1000 0 5000 4 3 [1, 2] (by decide) (by decide)
      (by decide) (by decide)).2⟩

/-- Invariant of the HitCount + ErrorCount fold: starting from in-range
counters, the hit counter advances by the number of invocations and the
error counter by the number of `Err` results, modulo the u64 width. -/
theorem hit_err_run_spec (rs : List Bool) :
    ∀ st : HitErrState, st.hit < 2 ^ 64 → st.err < 2 ^ 64 →
    (HitErr.run st rs).hit = (st.hit + rs.length) % 2 ^ 64
    ∧ (HitErr.run st rs).err = (st.err + rs.count true) % 2 ^ 64 := by
  have hM : 0 < 2 ^ 64 := Nat.pow_pos (by norm_num)
  induction rs with
  | nil =>
    intro st h1 h2
    constructor
    · show st.hit = (st.hit + 0) % 2 ^ 64
      rw [Nat.add_zero, Nat.mod_eq_of_lt h1]
    · show st.err = (st.err + List.count true []) % 2 ^ 64
      rw [List.count_nil, Nat.add_zero, Nat.mod_eq_of_lt h2]
  | cons b l ih =>
    intro st h1 h2
    have hstep : HitErr.run st (b :: l) = HitErr.run (HitErr.invoke st b) l := rfl
    have hhit : (HitErr.invoke st b).hit = (st.hit + 1) % 2 ^ 64 := rfl
    have herr : (HitErr.invoke st b).err
        = if b then (st.err + 1) % 2 ^ 64 else st.err := by
      cases b <;> rfl
    have h1' : (HitErr.invoke st b).hit < 2 ^ 64 := by
      rw [hhit]; exact Nat.mod_lt _ hM
    have h2' : (HitErr.invoke st b).err < 2 ^ 64 := by
      rw [herr]; cases b
      · simpa using h2
      · simpa using Nat.mod_lt (st.err + 1) hM
    obtain ⟨ihh, ihe⟩ := ih (HitErr.invoke st b) h1' h2'
    constructor
    · rw [hstep, ihh, hhit, Nat.mod_add_mod]
      congr 1
      simp [List.length_cons]
      omega
    · rw [hstep, ihe, herr]
      cases b
      · simp [List.count_cons]
      · rw [if_pos rfl, Nat.mod_add_mod]
        congr 1
        simp [List.count_cons]
        omega

/-- C8: for every sequence of T completed invocations of which exactly
M produce `Err` (with T below the u64 counter range), after all
invocations the `ErrorCount` counter — which increments iff the
observed result is the `Err` variant, at exit — equals M, and the
`HitCount` counter — which increments unconditionally at entry —
equals T. -/
theorem hit_and_error_counts (rs : List Bool) (T M : Nat)
    (hT : T = rs.length) (hM : M = rs.count true)
    (hlt : rs.length < 2 ^ 64) :
    (HitErr.run ⟨0, 0⟩ rs).hit = T ∧ (HitErr.run ⟨0, 0⟩ rs).err = M := by
  have hM64 : 0 < 2 ^ 64 := Nat.pow_pos (by norm_num)
  obtain ⟨hh, he⟩ := hit_err_run_spec rs ⟨0, 0⟩ hM64 hM64
  have hcle : rs.count true ≤ rs.length := List.count_le_length _ _
  constructor
  · rw [hh]
    show (0 + rs.length) % 2 ^ 64 = T
    rw [Nat.zero_add, Nat.mod_eq_of_lt hlt, hT]
  · rw [he]
    show (0 + rs.count true) % 2 ^ 64 = M
    rw [Nat.zero_add, Nat.mod_eq_of_lt (Nat.lt_of_le_of_lt hcle hlt), hM]

/-- Witness for C8: the spec's concrete scenario — run with
`should_fail = false` then `should_fail = true`; HitCount is 2 and
ErrorCount is 1. -/
theorem hit_and_error_counts_witness :
    ([false, true] : List Bool).length < 2 ^ 64
    ∧ (HitErr.run ⟨0, 0⟩ [false, true]).hit = 2
    ∧ (HitErr.run ⟨0, 0⟩ [false, true]).err = 1 :=
  ⟨by decide,
   (hit_and_error_counts [false, true] 2 1 (by decide) (by decide) (by decide)).1,
   (hit_and_error_counts [false, true] 2 1 (by decide) (by decide) (by decide)).2⟩

/-- Witness for C10 at a concrete empty histogram (bound 42) and a
concrete non-empty histogram being cleared. -/
theorem histogram_empty_min_and_clear_witness :
    ((⟨42, []⟩ : HdrHistogram).min = 0)
    ∧ ((⟨42, [7, 9]⟩ : HdrHistogram).clear.len = 0
       ∧ (⟨42, [7, 9]⟩ : HdrHistogram).clear.min = 0)
    ∧ ((⟨42, []⟩ : HdrHistogram).len = 0 ∧ (⟨42, []⟩ : HdrHistogram).min = 0) :=
  ⟨histogram_empty_min_and_clear.1 ⟨42, []⟩ rfl,
   histogram_empty_min_and_clear.2.1 ⟨42, [7, 9]⟩,
   histogram_empty_min_and_clear.2.2 42 ⟨42, []⟩ (by decide)⟩

end Metered
